import Mathlib

/-!
Verification development for `src/src-tauri/src/transcript.rs` of the
insightTube repository.

The Rust source is shallowly embedded: Rust `String`/`&str` values are
`List Char` (or Lean `String` where only whole-value equality matters),
`serde_json::Value` is the inductive `Json`, `Result<T, String>` is
`Except String T`, and the network is an oracle record `NetworkOracle`
mapping each outgoing request to the response the server would give
(transport-level failures, which abort the pipeline verbatim, are outside
the oracle).  Rust `f64` values produced by `str::parse::<f64>()` are
modelled by `RustFloat`: the documented parse grammar is followed exactly,
with finite results kept as exact rationals (rounding of the decimal to
the nearest binary double is not modelled; every property proved here
depends only on parse success/failure and on the sign of the value, both
of which rounding preserves).
-/

/-- Values of Rust `f64` as produced by `str::parse::<f64>()`: a finite
value kept exact as numerator/denominator (the denominator is always a
positive power of ten, the represented value is `num / den`; the pair is
deliberately not normalised, so equality of `RustFloat` is equality of
the deterministic parse result), the two infinities, or NaN. -/
inductive RustFloat where
  | finite (num : ℤ) (den : ℕ)
  | inf
  | negInf
  | nan
deriving DecidableEq

/-- The exact rational value represented by a finite parse result. -/
def RustFloat.val : RustFloat → Option ℚ
  | .finite num den => some ((num : ℚ) / (den : ℚ))
  | _ => none

/-- Negation of a parsed float (used for a leading minus sign). -/
def RustFloat.neg : RustFloat → RustFloat
  | .finite num den => .finite (-num) den
  | .inf => .negInf
  | .negInf => .inf
  | .nan => .nan

/-- IEEE comparison `v >= 0.0` (false for NaN; the denominator of a parse
result is always positive, so the sign is the numerator's). -/
def RustFloat.isNonneg : RustFloat → Bool
  | .finite num _ => decide (0 ≤ num)
  | .inf => true
  | .negInf => false
  | .nan => false

/-- All characters are ASCII digits. -/
def allDigits (l : List Char) : Bool := l.all Char.isDigit

/-- Value of a digit string read in base 10. -/
def digitsVal (l : List Char) : ℕ :=
  l.foldl (fun a c => 10 * a + (c.toNat - '0'.toNat)) 0

/-- `10 ^ n` as a natural number, by explicit recursion. -/
def npow10 : ℕ → ℕ
  | 0 => 1
  | n + 1 => 10 * npow10 n

/-- Split a character list at the first character satisfying `p`:
returns the part before it and, when found, the part after it. -/
def splitAtPred (p : Char → Bool) : List Char → List Char × Option (List Char)
  | [] => ([], none)
  | c :: r =>
    if p c then ([], some r)
    else
      let q := splitAtPred p r
      (c :: q.1, q.2)

/-- The mantissa part of the Rust `f64` grammar:
`Digit+ | Digit+ '.' Digit* | Digit* '.' Digit+`, with its exact value
`num / den` where `num` reads all digits and `den = 10 ^ |fraction|`. -/
def parseMantissa (l : List Char) : Option (ℤ × ℕ) :=
  match splitAtPred (fun c => c == '.') l with
  | (ip, none) =>
    if ip ≠ [] ∧ allDigits ip then some ((digitsVal ip : ℤ), 1) else none
  | (ip, some fp) =>
    if (ip ≠ [] ∨ fp ≠ []) ∧ allDigits ip ∧ allDigits fp then
      some ((digitsVal (ip ++ fp) : ℤ), npow10 fp.length)
    else none

/-- The exponent part of the Rust `f64` grammar: `Sign? Digit+`. -/
def parseExpPart (l : List Char) : Option ℤ :=
  match l with
  | '+' :: r => if r ≠ [] ∧ allDigits r then some ((digitsVal r : ℤ)) else none
  | '-' :: r => if r ≠ [] ∧ allDigits r then some (-(digitsVal r : ℤ)) else none
  | r => if r ≠ [] ∧ allDigits r then some ((digitsVal r : ℤ)) else none

/-- Rust `f64` parsing after the optional leading sign:
`'inf' | 'infinity' | 'nan' | Number` (keyword match case-insensitive),
`Number ::= Mantissa Exp?`, `Exp ::= ('e' | 'E') Sign? Digit+`. -/
def parseUnsignedF64 (l : List Char) : Option RustFloat :=
  let low := l.map Char.toLower
  if low = ['i', 'n', 'f'] ∨ low = ['i', 'n', 'f', 'i', 'n', 'i', 't', 'y'] then
    some .inf
  else if low = ['n', 'a', 'n'] then some .nan
  else
    match splitAtPred (fun c => c == 'e' || c == 'E') l with
    | (m, none) => (parseMantissa m).map (fun q => .finite q.1 q.2)
    | (m, some e) =>
      match parseMantissa m, parseExpPart e with
      | some q, some (Int.ofNat x) => some (.finite (q.1 * (npow10 x : ℤ)) q.2)
      | some q, some (Int.negSucc x) => some (.finite q.1 (q.2 * npow10 (x + 1)))
      | _, _ => none

/-- Rust `"s".parse::<f64>()`: `Sign? ( 'inf' | 'infinity' | 'nan' | Number )`. -/
def parseF64 : List Char → Option RustFloat
  | '+' :: r => parseUnsignedF64 r
  | '-' :: r => (parseUnsignedF64 r).map RustFloat.neg
  | l => parseUnsignedF64 l

/-- One step of Rust `str::replace` restricted to a non-empty pattern
`p0 :: pt` (every pattern in the source is a non-empty literal): scan left
to right, replacing each non-overlapping occurrence of the pattern by
`rep`.  `fuel` bounds the recursion; each step consumes at least one
character, so `fuel = s.length` never runs out. -/
def replaceAux (p0 : Char) (pt rep : List Char) : ℕ → List Char → List Char
  | 0, s => s
  | _ + 1, [] => []
  | fuel + 1, c :: s =>
    if (p0 :: pt).isPrefixOf (c :: s) then
      rep ++ replaceAux p0 pt rep fuel (s.drop pt.length)
    else
      c :: replaceAux p0 pt rep fuel s

/-- Rust `s.replace(p0 :: pt, rep)` for a non-empty pattern. -/
def replaceStr (p0 : Char) (pt rep s : List Char) : List Char :=
  replaceAux p0 pt rep s.length s

/-- The apostrophe character (decimal 39). -/
def aposChar : Char := Char.ofNat 39

/-- `decode_xml_entities` from transcript.rs lines 17-24: six chained
`replace` calls, `&amp;` first, then `&lt;`, `&gt;`, `&quot;`, `&#39;`,
`&apos;`. -/
def decode_xml_entities (text : List Char) : List Char :=
  replaceStr '&' ['a', 'p', 'o', 's', ';'] [aposChar]
    (replaceStr '&' ['#', '3', '9', ';'] [aposChar]
      (replaceStr '&' ['q', 'u', 'o', 't', ';'] ['"']
        (replaceStr '&' ['g', 't', ';'] ['>']
          (replaceStr '&' ['l', 't', ';'] ['<']
            (replaceStr '&' ['a', 'm', 'p', ';'] ['&'] text)))))

/-- `TranscriptSegment` from transcript.rs lines 9-15 (text kept as a
character list, numeric fields as parsed `f64` values). -/
structure TranscriptSegment where
  text : List Char
  duration : RustFloat
  offset : RustFloat
  lang : String
deriving DecidableEq

/-- Literal `<text start="` opening the caption-line pattern. -/
def lit1 : List Char := ['<', 't', 'e', 'x', 't', ' ', 's', 't', 'a', 'r', 't', '=', '"']

/-- Literal `" dur="` between the two numeric captures. -/
def lit2 : List Char := ['"', ' ', 'd', 'u', 'r', '=', '"']

/-- Literal `">` closing the opening tag. -/
def lit3 : List Char := ['"', '>']

/-- Literal `</text>` closing the caption line. -/
def lit4 : List Char := ['<', '/', 't', 'e', 'x', 't', '>']

/-- If `p` is a prefix of `s`, the remainder of `s` after it. -/
def stripPrefixChars (p s : List Char) : Option (List Char) :=
  if p.isPrefixOf s then some (s.drop p.length) else none

/-- Rust `str::contains` for a literal pattern: `pat` occurs as a
contiguous substring of `s`. -/
def containsSub (s pat : List Char) : Bool :=
  match s with
  | [] => pat.isEmpty
  | _ :: rest => pat.isPrefixOf s || containsSub rest pat

/-- Leftmost-match regex search: try the (deterministic) matcher at every
position from the left, returning the first hit. -/
def findFirst {α : Type} (tryAt : List Char → Option α) : List Char → Option α
  | [] => tryAt []
  | c :: rest => (tryAt (c :: rest)).orElse (fun _ => findFirst tryAt rest)

/-- Matching the caption-line regex
`<text start="([^"]*)" dur="([^"]*)">([^<]*)</text>` anchored at the head
of `s`.  The pattern is deterministic: each `[^x]*` group is forced to
stop exactly at the next `x`, so greedy matching equals `takeWhile`.
Returns the three captures and the remainder after the match. -/
def matchTextAt (s : List Char) :
    Option ((List Char × List Char × List Char) × List Char) :=
  match stripPrefixChars lit1 s with
  | none => none
  | some s1 =>
    let a := s1.takeWhile (fun ch => ch != '"')
    match stripPrefixChars lit2 (s1.dropWhile (fun ch => ch != '"')) with
    | none => none
    | some s3 =>
      let b := s3.takeWhile (fun ch => ch != '"')
      match stripPrefixChars lit3 (s3.dropWhile (fun ch => ch != '"')) with
      | none => none
      | some s5 =>
        let c := s5.takeWhile (fun ch => ch != '<')
        match stripPrefixChars lit4 (s5.dropWhile (fun ch => ch != '<')) with
        | none => none
        | some s7 => some ((a, b, c), s7)

/-- `captures_iter` of the caption-line regex: successive non-overlapping
leftmost matches.  `fuel` bounds the recursion; every step consumes at
least one character, so `fuel = body.length` never runs out. -/
def scanAux : ℕ → List Char → List (List Char × List Char × List Char)
  | 0, _ => []
  | _ + 1, [] => []
  | fuel + 1, ch :: rest =>
    match matchTextAt (ch :: rest) with
    | some (caps, s2) => caps :: scanAux fuel s2
    | none => scanAux fuel rest

/-- All caption-line captures of a transcript body, in order. -/
def scanTexts (body : List Char) : List (List Char × List Char × List Char) :=
  scanAux body.length body

/-- Building one `TranscriptSegment` from a capture triple
`(start, dur, text-content)`, transcript.rs lines 217-222: text is
entity-decoded, `dur`/`start` parsed with `unwrap_or(0.0)`, and the
already-selected language code attached. -/
def mkSegment (lang : String) (t : List Char × List Char × List Char) :
    TranscriptSegment :=
  { text := decode_xml_entities t.2.2
  , duration := (parseF64 t.2.1).getD (.finite 0 1)
  , offset := (parseF64 t.1).getD (.finite 0 1)
  , lang := lang }

/-- The segment list extracted from a transcript body, transcript.rs
lines 215-223. -/
def parseSegments (body : List Char) (lang : String) : List TranscriptSegment :=
  (scanTexts body).map (mkSegment lang)

/-- Error message of transcript.rs line 226. -/
def emptyTranscriptMsg : String :=
  "Transcript was empty. The video may not have captions available."

/-- Stage 4 parsing with the emptiness post-condition, transcript.rs
lines 213-229. -/
def parseTranscript (body : List Char) (lang : String) :
    Except String (List TranscriptSegment) :=
  let segments := parseSegments body lang
  if segments.isEmpty then .error emptyTranscriptMsg else .ok segments

/-- A parsed JSON document (`serde_json::Value`): objects keep their
fields as an ordered association list. -/
inductive Json where
  | null
  | bool (b : Bool)
  | num (n : ℤ)
  | str (s : String)
  | arr (elems : List Json)
  | obj (fields : List (String × Json))

/-- Field lookup in an object's association list (first match wins). -/
def lookupField : List (String × Json) → String → Option Json
  | [], _ => none
  | (k, v) :: rest, key => if k = key then some v else lookupField rest key

/-- `Value::get(key)`: `some` field value on objects, `none` otherwise. -/
def Json.getField : Json → String → Option Json
  | .obj fields, key => lookupField fields key
  | _, _ => none

/-- `Value::as_str()`. -/
def Json.asStr : Json → Option String
  | .str s => some s
  | _ => none

/-- `Value::as_array()`. -/
def Json.asArray : Json → Option (List Json)
  | .arr xs => some xs
  | _ => none

/-- The track-list node, transcript.rs lines 140-143: `captions` then
`playerCaptionsTracklistRenderer`, or that field at top level. -/
def tracklistOf (player_json : Json) : Option Json :=
  ((player_json.getField "captions").bind
      (fun c => c.getField "playerCaptionsTracklistRenderer")).orElse
    (fun _ => player_json.getField "playerCaptionsTracklistRenderer")

/-- The caption-track array, transcript.rs line 145. -/
def tracksOf (player_json : Json) : Option (List Json) :=
  ((tracklistOf player_json).bind
      (fun t => t.getField "captionTracks")).bind Json.asArray

/-- `playabilityStatus.status` as a string, transcript.rs lines 148-151. -/
def playabilityStatusOf (player_json : Json) : Option String :=
  ((player_json.getField "playabilityStatus").bind
      (fun p => p.getField "status")).bind Json.asStr

/-- Error message of transcript.rs lines 155 / 161 / 163. -/
def transcriptsDisabledMsg : String := "Transcripts are disabled for this video."

/-- Error message of transcript.rs line 157. -/
def transcriptUnavailableMsg : String := "No transcript available for this video."

/-- Caption-track extraction and its error taxonomy, transcript.rs lines
140-164: a missing track-list node consults playability, a present node
with a missing or empty track array is "disabled". -/
def extractTracks (player_json : Json) : Except String (List Json) :=
  match tracklistOf player_json with
  | none =>
    if playabilityStatusOf player_json = some "OK" then
      .error transcriptsDisabledMsg
    else
      .error transcriptUnavailableMsg
  | some _ =>
    match tracksOf player_json with
    | none => .error transcriptsDisabledMsg
    | some ts =>
      if ts.isEmpty then .error transcriptsDisabledMsg else .ok ts

/-- A track's `languageCode` as a string. -/
def trackLang (t : Json) : Option String :=
  (t.getField "languageCode").bind Json.asStr

/-- Track selection, transcript.rs lines 167-170: the first track whose
language code is exactly "en", else the first track. -/
def selectTrack (tracks : List Json) : Option Json :=
  (tracks.find? (fun t => decide (trackLang t = some "en"))).orElse
    (fun _ => tracks.head?)

/-- The language code attached to every segment, transcript.rs lines
173-177: the selected track's `languageCode`, defaulting to "en". -/
def langCodeOf (t : Json) : String := (trackLang t).getD "en"

/-- The transcript URL, transcript.rs lines 180-183: `baseUrl`, else
`url`, as a string. -/
def trackUrl (t : Json) : Option String :=
  ((t.getField "baseUrl").orElse (fun _ => t.getField "url")).bind Json.asStr

/-- Literal `&fmt=` opening the format-parameter pattern. -/
def fmtLit : List Char := ['&', 'f', 'm', 't', '=']

/-- Matching the regex `&fmt=[^&]+` anchored at the head of `s`: the
literal, then a non-empty greedy run of non-`&` characters.  Returns the
remainder after the match. -/
def matchFmtAt (s : List Char) : Option (List Char) :=
  match stripPrefixChars fmtLit s with
  | none => none
  | some r =>
    if (r.takeWhile (fun c => c != '&')).isEmpty then none
    else some (r.dropWhile (fun c => c != '&'))

/-- `Regex::replace` of `&fmt=[^&]+` by the empty string, transcript.rs
lines 187-188: only the first (leftmost) match is removed. -/
def stripFmt : List Char → List Char
  | [] => []
  | c :: rest =>
    match matchFmtAt (c :: rest) with
    | some rest2 => rest2
    | none => c :: stripFmt rest

/-- `reqwest::StatusCode::is_success()`: 200..=299. -/
def isSuccessStatus (status : ℕ) : Bool := decide (200 ≤ status ∧ status < 300)

/-- One outgoing Innertube player request: URL, the headers set on it
beyond the client defaults, and its JSON body. -/
structure MetaRequest where
  url : String
  headers : List (String × String)
  body : Json

/-- The JSON body of a player call, transcript.rs lines 82-90 / 102-112:
`{context: {client: {...}}, videoId}`. -/
def playerRequestBody (clientFields : List (String × Json)) (videoId : String) : Json :=
  .obj [("context", .obj [("client", .obj clientFields)]), ("videoId", .str videoId)]

/-- The primary (ANDROID persona) metadata request, transcript.rs lines
82-98. -/
def primaryRequest (playerUrl videoId : String) : MetaRequest :=
  { url := playerUrl
  , headers := [("Content-Type", "application/json")]
  , body := playerRequestBody
      [("clientName", .str "ANDROID"), ("clientVersion", .str "20.10.38")] videoId }

/-- The fallback (WEB persona) metadata request with its additional
identifying headers, transcript.rs lines 102-124. -/
def fallbackRequest (playerUrl videoId watchUrl : String) : MetaRequest :=
  { url := playerUrl
  , headers :=
      [ ("Content-Type", "application/json")
      , ("X-Youtube-Client-Name", "1")
      , ("X-Youtube-Client-Version", "2.20250122.01.00")
      , ("Origin", "https://www.youtube.com")
      , ("Referer", watchUrl) ]
  , body := playerRequestBody
      [ ("clientName", .str "WEB")
      , ("clientVersion", .str "2.20250122.01.00")
      , ("hl", .str "en")
      , ("gl", .str "US") ] videoId }

/-- Error message of transcript.rs lines 128-131. -/
def metadataFetchErrorMsg (status : ℕ) : String :=
  "Failed to fetch video metadata (HTTP " ++ toString status ++ "). The video may be unavailable."

/-- Stage 3 negotiation, transcript.rs lines 92-132: primary call, one
fallback on non-success, error carrying the final status.  `respond`
maps each request to the status and parsed JSON body of its response;
the second component of the result is the trace of requests issued. -/
def fetchMetadata (respond : MetaRequest → ℕ × Json)
    (playerUrl videoId watchUrl : String) :
    Except String Json × List MetaRequest :=
  let req1 := primaryRequest playerUrl videoId
  if isSuccessStatus (respond req1).1 then (.ok (respond req1).2, [req1])
  else
    let req2 := fallbackRequest playerUrl videoId watchUrl
    if isSuccessStatus (respond req2).1 then (.ok (respond req2).2, [req1, req2])
    else (.error (metadataFetchErrorMsg (respond req2).1), [req1, req2])

/-- Literal `"INNERTUBE_API_KEY":"` (plain-JSON credential pattern). -/
def key1Lit : List Char :=
  ['"', 'I', 'N', 'N', 'E', 'R', 'T', 'U', 'B', 'E', '_', 'A', 'P', 'I', '_',
   'K', 'E', 'Y', '"', ':', '"']

/-- Literal `INNERTUBE_API_KEY\":\"` (escaped-JSON credential pattern). -/
def key2Lit : List Char :=
  ['I', 'N', 'N', 'E', 'R', 'T', 'U', 'B', 'E', '_', 'A', 'P', 'I', '_',
   'K', 'E', 'Y', '\\', '"', ':', '\\', '"']

/-- Matching the regex `"INNERTUBE_API_KEY":"([^"]+)"` anchored at the
head of `s`: the literal, a non-empty run of non-quote characters, a
closing quote.  Returns the capture. -/
def matchKey1At (s : List Char) : Option (List Char) :=
  match stripPrefixChars key1Lit s with
  | none => none
  | some r =>
    let k := r.takeWhile (fun c => c != '"')
    if k.isEmpty then none
    else
      match r.dropWhile (fun c => c != '"') with
      | '"' :: _ => some k
      | _ => none

/-- Matching the regex `INNERTUBE_API_KEY\\":\\"([^\\"]+)\\"` anchored at
the head of `s`: the escaped literal, a non-empty run of characters that
are neither backslash nor quote, then `\"`. -/
def matchKey2At (s : List Char) : Option (List Char) :=
  match stripPrefixChars key2Lit s with
  | none => none
  | some r =>
    let k := r.takeWhile (fun c => c != '\\' && c != '"')
    if k.isEmpty then none
    else
      match r.dropWhile (fun c => c != '\\' && c != '"') with
      | '\\' :: '"' :: _ => some k
      | _ => none

/-- Credential extraction, transcript.rs lines 66-74: the plain pattern's
first match anywhere in the page, else the escaped pattern's. -/
def extractApiKey (body : List Char) : Option (List Char) :=
  (findFirst matchKey1At body).orElse (fun _ => findFirst matchKey2At body)

/-- The bot-challenge marker `class="g-recaptcha"`, transcript.rs line 61. -/
def captchaMarker : List Char :=
  ['c', 'l', 'a', 's', 's', '=', '"', 'g', '-', 'r', 'e', 'c', 'a', 'p',
   't', 'c', 'h', 'a', '"']

/-- Error message of transcript.rs lines 50-53 (`PageLoadError`). -/
def pageLoadErrorMsg (status : ℕ) : String :=
  "Failed to load video page (HTTP " ++ toString status ++ "). The video may be unavailable."

/-- Error message of transcript.rs line 62 (`CaptchaRequired`). -/
def captchaMsg : String := "YouTube is requesting a CAPTCHA. Please try again later."

/-- Error message of transcript.rs line 74 (`CredentialNotFound`). -/
def credentialNotFoundMsg : String :=
  "Could not extract YouTube API key. The video may not have transcripts available."

/-- Error message of transcript.rs line 171. -/
def noCaptionTrackMsg : String := "No caption track found."

/-- Error message of transcript.rs line 184. -/
def noTranscriptUrlMsg : String := "No transcript URL found for this video."

/-- Error message of transcript.rs line 197 (`RateLimited`). -/
def rateLimitedMsg : String := "Too many requests. Please try again later."

/-- Error message of transcript.rs lines 201-204 (`TranscriptFetchError`). -/
def transcriptFetchErrorMsg (status : ℕ) : String :=
  "Failed to fetch transcript (HTTP " ++ toString status ++ ")."

/-- The canonical watch-page URL, transcript.rs line 42. -/
def watchUrlOf (video_id : String) : String :=
  "https://www.youtube.com/watch?v=" ++ video_id

/-- The Innertube player URL, transcript.rs lines 77-80. -/
def playerUrlOf (api_key : List Char) : String :=
  "https://www.youtube.com/youtubei/v1/player?key=" ++ String.mk api_key

/-- The network as seen by one invocation: the response (status and body)
the server would give to each of the three kinds of request. -/
structure NetworkOracle where
  watchPage : String → ℕ × List Char
  player : MetaRequest → ℕ × Json
  transcript : List Char → ℕ × List Char

/-- Stage 4, transcript.rs lines 173-229, starting from the selected
track: language code, transcript URL, `fmt` stripping, the transcript
GET with its 429 / non-success checks, then parsing. -/
def fetchAndParse (net : NetworkOracle) (selected_track : Json) :
    Except String (List TranscriptSegment) :=
  match trackUrl selected_track with
  | none => .error noTranscriptUrlMsg
  | some url =>
    let transcript_url := stripFmt url.data
    if (net.transcript transcript_url).1 = 429 then .error rateLimitedMsg
    else if isSuccessStatus (net.transcript transcript_url).1 then
      parseTranscript (net.transcript transcript_url).2 (langCodeOf selected_track)
    else .error (transcriptFetchErrorMsg (net.transcript transcript_url).1)

/-- Stages 1-3, transcript.rs lines 39-171: page fetch, captcha check,
credential extraction, metadata negotiation, track extraction, track
selection. -/
def selectTrackStage (net : NetworkOracle) (video_id : String) :
    Except String Json :=
  let watch_url := watchUrlOf video_id
  if isSuccessStatus (net.watchPage watch_url).1 then
    if containsSub (net.watchPage watch_url).2 captchaMarker then
      .error captchaMsg
    else
      match extractApiKey (net.watchPage watch_url).2 with
      | none => .error credentialNotFoundMsg
      | some api_key =>
        match (fetchMetadata net.player (playerUrlOf api_key) video_id watch_url).1 with
        | .error e => .error e
        | .ok player_json =>
          match extractTracks player_json with
          | .error e => .error e
          | .ok tracks =>
            match selectTrack tracks with
            | none => .error noCaptionTrackMsg
            | some selected => .ok selected
  else .error (pageLoadErrorMsg (net.watchPage watch_url).1)

/-- `fetch_transcript` from transcript.rs lines 38-229, relative to a
network oracle. -/
def fetch_transcript (net : NetworkOracle) (video_id : String) :
    Except String (List TranscriptSegment) :=
  match selectTrackStage net video_id with
  | .error e => .error e
  | .ok selected => fetchAndParse net selected

/-- One well-formed caption element `<text start="A" dur="B">C</text>`
built from a capture triple. -/
def textElemOf (t : List Char × List Char × List Char) : List Char :=
  lit1 ++ t.1 ++ lit2 ++ t.2.1 ++ lit3 ++ t.2.2 ++ lit4

/-- Well-formedness of a capture triple: attribute values contain no
double quote, the text content contains no `<`. -/
abbrev wfTextCaps (t : List Char × List Char × List Char) : Prop :=
  (∀ x ∈ t.1, x ≠ '"') ∧ (∀ x ∈ t.2.1, x ≠ '"') ∧ (∀ x ∈ t.2.2, x ≠ '<')

/-- A markup payload interleaving junk with well-formed caption elements:
`j0 ++ elem t0 ++ j1 ++ elem t1 ++ ... ++ jEnd`. -/
def payloadOf : List (List Char × (List Char × List Char × List Char)) → List Char → List Char
  | [], jEnd => jEnd
  | (j, t) :: rest, jEnd => j ++ textElemOf t ++ payloadOf rest jEnd

/-- Demo caption track with language code "fr". -/
def demoTrackFr : Json :=
  .obj [("languageCode", .str "fr"),
        ("baseUrl", .str "https://captions.example/t?lang=fr")]

/-- Demo caption track with language code "en" and an `&fmt=` parameter
in its URL. -/
def demoTrackEn : Json :=
  .obj [("languageCode", .str "en"),
        ("baseUrl", .str "https://captions.example/t?lang=en&fmt=srv3")]

/-- Demo caption track with language code "de". -/
def demoTrackDe : Json := .obj [("languageCode", .str "de")]

/-- Demo caption track without any `languageCode` field. -/
def demoTrackNoLang : Json :=
  .obj [("baseUrl", .str "https://captions.example/t?lang=xx")]

/-- Demo track lists. -/
def demoTracks3 : List Json := [demoTrackFr, demoTrackEn, demoTrackDe]

/-- Demo track list without an "en" entry. -/
def demoTracks2 : List Json := [demoTrackFr, demoTrackDe]

/-- Demo watch-page body containing the plain credential pattern. -/
def demoPageBody : List Char := key1Lit ++ ['K', '1'] ++ ['"']

/-- Demo player response with one "en" caption track. -/
def demoPlayerJson : Json :=
  .obj [("captions", .obj [("playerCaptionsTracklistRenderer",
    .obj [("captionTracks", .arr [demoTrackFr, demoTrackEn])])])]

/-- Demo player response whose only track has no `languageCode`. -/
def demoPlayerJsonNoLang : Json :=
  .obj [("captions", .obj [("playerCaptionsTracklistRenderer",
    .obj [("captionTracks", .arr [demoTrackNoLang])])])]

/-- Demo transcript body with two caption lines. -/
def demoXml : List Char :=
  ("<text start=\"0\" dur=\"1\">hi</text>" ++
   "<text start=\"1\" dur=\"2\">yo</text>").data

/-- Demo network oracle for a fully successful run. -/
def demoNet : NetworkOracle :=
  { watchPage := fun _ => (200, demoPageBody)
  , player := fun _ => (200, demoPlayerJson)
  , transcript := fun _ => (200, demoXml) }

/-- Demo network oracle whose selected track carries no language code. -/
def demoNetNoLang : NetworkOracle :=
  { watchPage := fun _ => (200, demoPageBody)
  , player := fun _ => (200, demoPlayerJsonNoLang)
  , transcript := fun _ => (200, demoXml) }

/-- The two segments of the successful demo run. -/
def demoSegA : TranscriptSegment :=
  { text := ['h', 'i'], duration := .finite 1 1, offset := .finite 0 1, lang := "en" }

/-- Second segment of the successful demo run. -/
def demoSegB : TranscriptSegment :=
  { text := ['y', 'o'], duration := .finite 2 1, offset := .finite 1 1, lang := "en" }

/-- Result of the successful demo run. -/
def demoSegs : List TranscriptSegment := [demoSegA, demoSegB]

/-- Metadata responder that always answers HTTP 500. -/
def respondBad : MetaRequest → ℕ × Json := fun _ => (500, Json.null)

/-- A transcript URL whose `fmt` parameter is the first query parameter
(introduced by `?`, not `&`). -/
def c7Url : List Char :=
  "https://www.youtube.com/api/timedtext?fmt=srv3&lang=en".data

/-- URL prefix (up to the `&fmt=` parameter) used in the C7 witness. -/
def c7wUrlPre : List Char :=
  "https://www.youtube.com/api/timedtext?caps=asr&lang=en".data

/-- Metadata response whose track-list node exists but holds an empty
track array, with a non-playable status. -/
def pjEmptyTracks : Json :=
  .obj [("captions", .obj [("playerCaptionsTracklistRenderer",
          .obj [("captionTracks", .arr [])])]),
        ("playabilityStatus", .obj [("status", .str "LOGIN_REQUIRED")])]

/-- Metadata response with no track-list node and status "OK". -/
def pjNoTracklistOK : Json :=
  .obj [("playabilityStatus", .obj [("status", .str "OK")])]

/-- Metadata response with no track-list node and a non-"OK" status. -/
def pjNoTracklistBad : Json :=
  .obj [("playabilityStatus", .obj [("status", .str "LOGIN_REQUIRED")])]

/-- A list is a prefix (in the Boolean sense) of itself followed by
anything. -/
lemma isPrefixOf_self_append : ∀ p t : List Char, p.isPrefixOf (p ++ t) = true
  | [], _ => by simp [List.isPrefixOf]
  | c :: p, t => by simp [List.isPrefixOf, isPrefixOf_self_append p t]

/-- Stripping a prefix from that prefix followed by anything leaves the
remainder. -/
lemma stripPrefixChars_self (p t : List Char) :
    stripPrefixChars p (p ++ t) = some t := by
  simp [stripPrefixChars, isPrefixOf_self_append, List.drop_left]

/-- `takeWhile`/`dropWhile` split an append exactly at the boundary when
all of `v` satisfies `p` and `s` is empty or starts with a failing
character. -/
lemma takeWhile_append_stop {p : Char → Bool} :
    ∀ v s : List Char, (∀ c ∈ v, p c = true) →
      (s = [] ∨ ∃ c s2, s = c :: s2 ∧ p c = false) →
      (v ++ s).takeWhile p = v ∧ (v ++ s).dropWhile p = s := by
  intro v
  induction v with
  | nil =>
    intro s _ hs
    rcases hs with rfl | ⟨c, s2, rfl, hc⟩
    · exact ⟨rfl, rfl⟩
    · simp [List.takeWhile_cons, List.dropWhile_cons, hc]
  | cons a v ih =>
    intro s hv hs
    have ha : p a = true := hv a (by simp)
    have h := ih s (fun c hc => hv c (by simp [hc])) hs
    simp [List.takeWhile_cons, List.dropWhile_cons, ha, h.1, h.2]

/-- The caption-line matcher succeeds on a well-formed element and
consumes exactly it. -/
lemma matchTextAt_elem (t : List Char × List Char × List Char) (s : List Char)
    (h : wfTextCaps t) :
    matchTextAt (textElemOf t ++ s) = some (t, s) := by
  obtain ⟨a, b, c⟩ := t
  obtain ⟨ha, hb, hc⟩ := h
  have e1 : textElemOf (a, b, c) ++ s =
      lit1 ++ (a ++ (lit2 ++ (b ++ (lit3 ++ (c ++ (lit4 ++ s)))))) := by
    simp [textElemOf, List.append_assoc]
  have h1 := takeWhile_append_stop (p := fun ch => ch != '"')
      a (lit2 ++ (b ++ (lit3 ++ (c ++ (lit4 ++ s)))))
      (fun x hx => by simpa using ha x hx)
      (Or.inr ⟨'"', [' ', 'd', 'u', 'r', '=', '"'] ++ (b ++ (lit3 ++ (c ++ (lit4 ++ s)))), rfl, by decide⟩)
  have h2 := takeWhile_append_stop (p := fun ch => ch != '"')
      b (lit3 ++ (c ++ (lit4 ++ s)))
      (fun x hx => by simpa using hb x hx)
      (Or.inr ⟨'"', ['>'] ++ (c ++ (lit4 ++ s)), rfl, by decide⟩)
  have h3 := takeWhile_append_stop (p := fun ch => ch != '<')
      c (lit4 ++ s)
      (fun x hx => by simpa using hc x hx)
      (Or.inr ⟨'<', ['/', 't', 'e', 'x', 't', '>'] ++ s, rfl, by decide⟩)
  rw [e1]
  simp only [matchTextAt, stripPrefixChars_self, h1.1, h1.2, h2.1, h2.2, h3.1, h3.2]

/-- The caption-line matcher fails at any position not starting with `<`. -/
lemma matchTextAt_cons_ne (c : Char) (s : List Char) (h : c ≠ '<') :
    matchTextAt (c :: s) = none := by
  have hb : ('<' == c) = false := by
    rw [beq_eq_false_iff_ne]
    exact fun e => h e.symm
  have hpre : lit1.isPrefixOf (c :: s) = false := by
    simp [lit1, List.isPrefixOf, hb]
  simp [matchTextAt, stripPrefixChars, hpre]

/-- Unfolding `scanAux` one step on a non-zero fuel and a cons cell. -/
lemma scanAux_cons (fuel : ℕ) (c : Char) (rest : List Char) :
    scanAux (fuel + 1) (c :: rest) =
      match matchTextAt (c :: rest) with
      | some (caps, s2) => caps :: scanAux fuel s2
      | none => scanAux fuel rest := rfl

/-- Scanning a body without `<` yields nothing, with any fuel. -/
lemma scanAux_all_ne (fuel : ℕ) :
    ∀ j : List Char, (∀ c ∈ j, c ≠ '<') → scanAux fuel j = [] := by
  induction fuel with
  | zero => intro j _; rfl
  | succ fuel ih =>
    intro j hj
    cases j with
    | nil => rfl
    | cons c rest =>
      rw [scanAux_cons, matchTextAt_cons_ne c rest (hj c (by simp))]
      exact ih rest (fun x hx => hj x (by simp [hx]))

/-- Scanning skips a junk block without `<`, consuming one unit of fuel
per skipped character. -/
lemma scanAux_skip :
    ∀ j : List Char, (∀ c ∈ j, c ≠ '<') → ∀ (fuel : ℕ) (s : List Char),
      scanAux (j.length + fuel) (j ++ s) = scanAux fuel s := by
  intro j
  induction j with
  | nil => intro _ fuel s; simp
  | cons c j ih =>
    intro hj fuel s
    have hc : c ≠ '<' := hj c (by simp)
    have hlen : (c :: j).length + fuel = (j.length + fuel) + 1 := by
      simp [List.length_cons]; omega
    rw [hlen]
    show scanAux ((j.length + fuel) + 1) (c :: (j ++ s)) = scanAux fuel s
    rw [scanAux_cons, matchTextAt_cons_ne c (j ++ s) hc]
    exact ih (fun x hx => hj x (by simp [hx])) fuel s

/-- Scanning a well-formed element followed by anything emits its capture
and continues after it. -/
lemma scanAux_elem (t : List Char × List Char × List Char) (h : wfTextCaps t)
    (fuel : ℕ) (s : List Char) :
    scanAux (fuel + 1) (textElemOf t ++ s) = t :: scanAux fuel s := by
  have e : textElemOf t ++ s =
      '<' :: (['t', 'e', 'x', 't', ' ', 's', 't', 'a', 'r', 't', '=', '"'] ++
        (t.1 ++ (lit2 ++ (t.2.1 ++ (lit3 ++ (t.2.2 ++ (lit4 ++ s))))))) := by
    simp [textElemOf, lit1, List.append_assoc]
  rw [e, scanAux_cons, ← e, matchTextAt_elem t s h]

/-- Scanning a payload of junk-separated well-formed elements yields
exactly the list of their captures, provided the fuel covers the payload
length. -/
lemma scanAux_payload :
    ∀ (ps : List (List Char × (List Char × List Char × List Char)))
      (jEnd : List Char) (fuel : ℕ),
      (∀ p ∈ ps, (∀ c ∈ p.1, c ≠ '<') ∧ wfTextCaps p.2) →
      (∀ c ∈ jEnd, c ≠ '<') →
      (payloadOf ps jEnd).length ≤ fuel →
      scanAux fuel (payloadOf ps jEnd) = ps.map (fun p => p.2) := by
  intro ps
  induction ps with
  | nil =>
    intro jEnd fuel _ hEnd _
    simpa [payloadOf] using scanAux_all_ne fuel jEnd hEnd
  | cons p ps ih =>
    obtain ⟨j, t⟩ := p
    intro jEnd fuel hwf hEnd hfuel
    have hj : ∀ c ∈ j, c ≠ '<' := (hwf (j, t) (by simp)).1
    have ht : wfTextCaps t := (hwf (j, t) (by simp)).2
    have hplen : (payloadOf ((j, t) :: ps) jEnd).length =
        j.length + ((textElemOf t).length + (payloadOf ps jEnd).length) := by
      simp [payloadOf]
    have htlen : 1 ≤ (textElemOf t).length := by
      simp [textElemOf, lit1]
    rw [hplen] at hfuel
    have e : payloadOf ((j, t) :: ps) jEnd =
        j ++ (textElemOf t ++ payloadOf ps jEnd) := by
      simp [payloadOf, List.append_assoc]
    have h1 : fuel = j.length + (fuel - j.length) := by omega
    rw [e, h1, scanAux_skip j hj]
    have h2 : fuel - j.length = (fuel - j.length - 1) + 1 := by omega
    rw [h2, scanAux_elem t ht]
    rw [ih jEnd (fuel - j.length - 1) (fun q hq => hwf q (by simp [hq])) hEnd (by omega)]
    simp

/-- A successful parse carries the given language on every segment. -/
lemma parseTranscript_ok_lang (body : List Char) (lang : String)
    (segs : List TranscriptSegment)
    (h : parseTranscript body lang = .ok segs) :
    ∀ s ∈ segs, s.lang = lang := by
  simp only [parseTranscript] at h
  split at h
  · exact Except.noConfusion h
  · cases h
    intro s hs
    simp only [parseSegments, List.mem_map] at hs
    obtain ⟨t, _, rfl⟩ := hs
    rfl

/-- A successful parse is never the empty list. -/
lemma parseTranscript_ok_ne_nil (body : List Char) (lang : String)
    (segs : List TranscriptSegment)
    (h : parseTranscript body lang = .ok segs) :
    segs ≠ [] := by
  simp only [parseTranscript] at h
  split at h
  · exact Except.noConfusion h
  · rename_i hc
    cases h
    intro hnil
    rw [hnil] at hc
    exact hc rfl

/-- A successful stage-4 run comes from a successful parse of some body
with the selected track's language code. -/
lemma fetchAndParse_ok (net : NetworkOracle) (tr : Json)
    (segs : List TranscriptSegment)
    (h : fetchAndParse net tr = .ok segs) :
    ∃ body, parseTranscript body (langCodeOf tr) = .ok segs := by
  simp only [fetchAndParse] at h
  cases hu : trackUrl tr with
  | none => rw [hu] at h; exact Except.noConfusion h
  | some url =>
    rw [hu] at h
    by_cases h429 : (net.transcript (stripFmt url.data)).1 = 429
    · simp [h429] at h
    · by_cases hsucc : isSuccessStatus (net.transcript (stripFmt url.data)).1 = true
      · simp [h429, hsucc] at h
        exact ⟨_, h⟩
      · simp [h429, hsucc] at h

/-- A successful whole-pipeline run decomposes into a selected track and
a successful stage-4 run on it. -/
lemma fetch_transcript_ok (net : NetworkOracle) (video_id : String)
    (segs : List TranscriptSegment)
    (h : fetch_transcript net video_id = .ok segs) :
    ∃ tr, selectTrackStage net video_id = .ok tr ∧ fetchAndParse net tr = .ok segs := by
  simp only [fetch_transcript] at h
  cases hs : selectTrackStage net video_id with
  | error e => rw [hs] at h; exact Except.noConfusion h
  | ok tr => rw [hs] at h; exact ⟨tr, rfl, h⟩

/-- The `&fmt=` matcher succeeds on `&fmt=` followed by a maximal
non-empty run of non-`&` characters and consumes exactly that. -/
lemma matchFmtAt_append (v s : List Char) (hv : v ≠ [])
    (hvamp : ∀ c ∈ v, c ≠ '&')
    (hs : s = [] ∨ ∃ s2, s = '&' :: s2) :
    matchFmtAt (fmtLit ++ (v ++ s)) = some s := by
  have hspan := takeWhile_append_stop (p := fun c => c != '&') v s
      (fun c hc => by simpa using hvamp c hc)
      (by
        rcases hs with rfl | ⟨s2, rfl⟩
        · exact Or.inl rfl
        · exact Or.inr ⟨'&', s2, rfl, by decide⟩)
  have hne : v.isEmpty = false := by
    cases v with
    | nil => exact absurd rfl hv
    | cons a v => rfl
  simp only [matchFmtAt, stripPrefixChars_self, hspan.1, hspan.2, hne,
    Bool.false_eq_true, if_false]

/-- `&fmt=` cannot match across the boundary of a block that does not
contain it: no proper suffix of the 5-character literal is consistent
with its own prefix. -/
lemma fmtLit_no_boundary : ∀ (p X : List Char), p ≠ [] →
    containsSub p fmtLit = false →
    fmtLit.isPrefixOf (p ++ (fmtLit ++ X)) = false
  | [], _, hne, _ => absurd rfl hne
  | [c1], X, _, _ => by
    rw [Bool.eq_false_iff]
    intro hpre
    simp only [fmtLit, List.cons_append, List.nil_append, List.isPrefixOf,
      Bool.and_eq_true, beq_iff_eq] at hpre
    exact absurd hpre.2.1 (by decide)
  | [c1, c2], X, _, _ => by
    rw [Bool.eq_false_iff]
    intro hpre
    simp only [fmtLit, List.cons_append, List.nil_append, List.isPrefixOf,
      Bool.and_eq_true, beq_iff_eq] at hpre
    exact absurd hpre.2.2.1 (by decide)
  | [c1, c2, c3], X, _, _ => by
    rw [Bool.eq_false_iff]
    intro hpre
    simp only [fmtLit, List.cons_append, List.nil_append, List.isPrefixOf,
      Bool.and_eq_true, beq_iff_eq] at hpre
    exact absurd hpre.2.2.2.1 (by decide)
  | [c1, c2, c3, c4], X, _, _ => by
    rw [Bool.eq_false_iff]
    intro hpre
    simp only [fmtLit, List.cons_append, List.nil_append, List.isPrefixOf,
      Bool.and_eq_true, beq_iff_eq] at hpre
    exact absurd hpre.2.2.2.2 (by decide)
  | c1 :: c2 :: c3 :: c4 :: c5 :: p6, X, _, hp => by
    rw [Bool.eq_false_iff]
    intro hpre
    simp only [fmtLit, List.cons_append, List.isPrefixOf,
      Bool.and_eq_true, beq_iff_eq, and_true] at hpre
    obtain ⟨e1, e2, e3, e4, e5⟩ := hpre
    have : containsSub (c1 :: c2 :: c3 :: c4 :: c5 :: p6) fmtLit = true := by
      subst e1; subst e2; subst e3; subst e4; subst e5
      simp [containsSub, fmtLit, List.isPrefixOf]
    rw [this] at hp
    exact Bool.noConfusion hp

/-- Unfolding `stripFmt` one step on a cons cell. -/
lemma stripFmt_cons (c : Char) (rest : List Char) :
    stripFmt (c :: rest) =
      match matchFmtAt (c :: rest) with
      | some rest2 => rest2
      | none => c :: stripFmt rest := rfl

/-- C1 (amended): for every markup payload built from junk blocks (free
of `<`) interleaved with N well-formed `<text start dur>` elements, the
parser produces exactly N `TranscriptSegment`s, the i-th built from the
i-th element's captures by `mkSegment` (decoded text, parse-or-default
numeric fields, the given language).  The original claim's per-segment
conditions `duration ≥ 0`, `offset ≥ 0` and escape-free decoded text do
not hold and are dropped (see the counterexample). -/
theorem C1_parser_exact_count
    (ps : List (List Char × (List Char × List Char × List Char)))
    (jEnd : List Char) (lang : String)
    (hwf : ∀ p ∈ ps, (∀ c ∈ p.1, c ≠ '<') ∧ wfTextCaps p.2)
    (hEnd : ∀ c ∈ jEnd, c ≠ '<') :
    parseSegments (payloadOf ps jEnd) lang = ps.map (fun p => mkSegment lang p.2) ∧
    (parseSegments (payloadOf ps jEnd) lang).length = ps.length := by
  have h := scanAux_payload ps jEnd (payloadOf ps jEnd).length hwf hEnd le_rfl
  constructor
  · simp [parseSegments, scanTexts, h, List.map_map]
  · simp [parseSegments, scanTexts, h]

/-- C1 witness: the theorem applied to a payload with one well-formed
element surrounded by junk. -/
theorem C1_parser_exact_count_witness :
    parseSegments (payloadOf [(['x'], (['0'], ['1'], ['h', 'i']))] ['y']) "en" =
      [mkSegment "en" (['0'], ['1'], ['h', 'i'])] ∧
    (parseSegments (payloadOf [(['x'], (['0'], ['1'], ['h', 'i']))] ['y']) "en").length = 1 := by
  have h := C1_parser_exact_count [(['x'], (['0'], ['1'], ['h', 'i']))] ['y'] "en"
    (by decide) (by decide)
  exact ⟨h.1, h.2⟩

/-- C1 counterexample: the payload consisting of the single well-formed
element `<text start="-2" dur="-1">&amp;amp;</text>` yields one segment
whose duration and offset are negative and whose decoded text still
contains the handled escape `&amp;`, refuting the claimed per-segment
properties. -/
theorem C1_counterexample :
    parseSegments
        (payloadOf [([], (['-', '2'], ['-', '1'],
          ['&', 'a', 'm', 'p', ';', 'a', 'm', 'p', ';']))] []) "en" =
      [{ text := ['&', 'a', 'm', 'p', ';']
       , duration := .finite (-1) 1
       , offset := .finite (-2) 1
       , lang := "en" }] ∧
    RustFloat.isNonneg (.finite (-1) 1) = false ∧
    RustFloat.isNonneg (.finite (-2) 1) = false ∧
    containsSub ['&', 'a', 'm', 'p', ';'] ['&', 'a', 'm', 'p', ';'] = true := by
  decide

/-- C2 counterexample: decoding `"&amp;lt;"` does not give `"&lt;"` (it
gives `"<"`), and decoding is not idempotent: a second decode of the
result of decoding `"&amp;amp;"` changes it. -/
theorem C2_counterexample :
    decode_xml_entities ['&', 'a', 'm', 'p', ';', 'l', 't', ';'] ≠ ['&', 'l', 't', ';'] ∧
    decode_xml_entities (decode_xml_entities ['&', 'a', 'm', 'p', ';', 'a', 'm', 'p', ';']) ≠
      decode_xml_entities ['&', 'a', 'm', 'p', ';', 'a', 'm', 'p', ';'] := by
  decide

/-- C2 (amended): the decoder resolves the ampersand escape first, so
`"&amp;lt;"` decodes to `"<"` (the resolved ampersand is re-expanded by
the later `&lt;` replacement), `"&amp;amp;"` decodes to `"&amp;"`, and a
second decode of that result gives `"&"` — the decoder is neither
order-protected in the claimed sense nor idempotent. -/
theorem C2_decode_order :
    decode_xml_entities ['&', 'a', 'm', 'p', ';', 'l', 't', ';'] = ['<'] ∧
    decode_xml_entities ['&', 'a', 'm', 'p', ';', 'a', 'm', 'p', ';'] =
      ['&', 'a', 'm', 'p', ';'] ∧
    decode_xml_entities ['&', 'a', 'm', 'p', ';'] = ['&'] := by
  decide

/-- C3 (confirmed): if the track-list node exists but the track array is
missing or empty, the result is `TranscriptsDisabled` with no condition
on playability; if the node is missing, status "OK" gives
`TranscriptsDisabled` and any other status value gives
`TranscriptUnavailable`. -/
theorem C3_track_error_taxonomy (pj : Json) :
    ((tracklistOf pj).isSome = true →
      (tracksOf pj = none ∨ tracksOf pj = some []) →
      extractTracks pj = .error transcriptsDisabledMsg) ∧
    (tracklistOf pj = none → playabilityStatusOf pj = some "OK" →
      extractTracks pj = .error transcriptsDisabledMsg) ∧
    (tracklistOf pj = none → playabilityStatusOf pj ≠ some "OK" →
      extractTracks pj = .error transcriptUnavailableMsg) := by
  refine ⟨?_, ?_, ?_⟩
  · intro h1 h2
    unfold extractTracks
    cases htl : tracklistOf pj with
    | none => rw [htl] at h1; exact Bool.noConfusion h1
    | some tl => rcases h2 with h2 | h2 <;> (rw [h2]; try simp)
  · intro h1 h2
    unfold extractTracks
    rw [h1]
    simp [h2]
  · intro h1 h2
    unfold extractTracks
    rw [h1]
    simp [h2]

/-- C3 witness: the theorem applied to three concrete metadata
responses. -/
theorem C3_track_error_taxonomy_witness :
    extractTracks pjEmptyTracks = .error transcriptsDisabledMsg ∧
    extractTracks pjNoTracklistOK = .error transcriptsDisabledMsg ∧
    extractTracks pjNoTracklistBad = .error transcriptUnavailableMsg := by
  refine ⟨?_, ?_, ?_⟩
  · exact (C3_track_error_taxonomy pjEmptyTracks).1 rfl (Or.inr rfl)
  · exact (C3_track_error_taxonomy pjNoTracklistOK).2.1 rfl rfl
  · exact (C3_track_error_taxonomy pjNoTracklistBad).2.2 rfl (by decide)

/-- C4 (confirmed): on a non-empty track list selection always succeeds,
the selected track belongs to the list, it has language code "en"
whenever any track does, and when no track is "en" the selected track is
the provider-ordered first. -/
theorem C4_track_selection (tracks : List Json) (hne : tracks ≠ []) :
    (∃ t, selectTrack tracks = some t) ∧
    (∀ t, selectTrack tracks = some t → t ∈ tracks) ∧
    ((∃ t ∈ tracks, trackLang t = some "en") →
      ∀ t, selectTrack tracks = some t → trackLang t = some "en") ∧
    ((∀ t ∈ tracks, trackLang t ≠ some "en") →
      selectTrack tracks = tracks.head?) := by
  cases hf : tracks.find? (fun t => decide (trackLang t = some "en")) with
  | none =>
    have hsel : selectTrack tracks = tracks.head? := by
      simp [selectTrack, hf, Option.orElse]
    refine ⟨?_, ?_, ?_, fun _ => hsel⟩
    · cases tracks with
      | nil => exact absurd rfl hne
      | cons a ts => exact ⟨a, by rw [hsel]; rfl⟩
    · intro t ht
      rw [hsel] at ht
      cases tracks with
      | nil => exact Option.noConfusion ht
      | cons a ts =>
        cases ht
        exact List.mem_cons_self _ _
    · rintro ⟨t0, ht0, hl0⟩ t ht
      have hnone := List.find?_eq_none.mp hf t0 ht0
      exact absurd (decide_eq_true hl0) hnone
  | some t0 =>
    have hsel : selectTrack tracks = some t0 := by
      simp [selectTrack, hf, Option.orElse]
    have hmem : t0 ∈ tracks := List.mem_of_find?_eq_some hf
    have hlang : trackLang t0 = some "en" := by
      have hp := List.find?_some hf
      simpa using hp
    refine ⟨⟨t0, hsel⟩, ?_, ?_, ?_⟩
    · intro t ht
      rw [hsel] at ht
      cases ht
      exact hmem
    · intro _ t ht
      rw [hsel] at ht
      cases ht
      exact hlang
    · intro hall
      exact absurd hlang (hall t0 hmem)

/-- C4 witness: the theorem applied to the demo track lists, giving the
first track on `[fr, de]` and a successful selection on `[fr, en, de]`. -/
theorem C4_track_selection_witness :
    selectTrack demoTracks2 = some demoTrackFr ∧
    (selectTrack demoTracks3).isSome = true ∧
    trackLang demoTrackEn = some "en" := by
  obtain ⟨_, _, _, h4⟩ := C4_track_selection demoTracks2 (by simp [demoTracks2])
  obtain ⟨h1b, _, _, _⟩ := C4_track_selection demoTracks3 (by simp [demoTracks3])
  refine ⟨?_, ?_, rfl⟩
  · exact (h4 (by decide)).trans rfl
  · obtain ⟨t, ht⟩ := h1b
    rw [ht]
    rfl

/-- C5 (confirmed): when the primary (ANDROID) call returns a
non-success status, exactly the primary and one fallback request are
issued (never a third), the fallback carries the WEB persona body and
its additional identifying headers, and if the fallback also returns
non-success the result is the metadata-fetch error carrying the
fallback's status. -/
theorem C5_metadata_fallback (respond : MetaRequest → ℕ × Json)
    (playerUrl videoId watchUrl : String)
    (hfail : isSuccessStatus (respond (primaryRequest playerUrl videoId)).1 = false) :
    (fetchMetadata respond playerUrl videoId watchUrl).2 =
      [primaryRequest playerUrl videoId, fallbackRequest playerUrl videoId watchUrl] ∧
    (fallbackRequest playerUrl videoId watchUrl).headers =
      [("Content-Type", "application/json"),
       ("X-Youtube-Client-Name", "1"),
       ("X-Youtube-Client-Version", "2.20250122.01.00"),
       ("Origin", "https://www.youtube.com"),
       ("Referer", watchUrl)] ∧
    (fallbackRequest playerUrl videoId watchUrl).body =
      playerRequestBody
        [("clientName", .str "WEB"), ("clientVersion", .str "2.20250122.01.00"),
         ("hl", .str "en"), ("gl", .str "US")] videoId ∧
    (isSuccessStatus (respond (fallbackRequest playerUrl videoId watchUrl)).1 = false →
      (fetchMetadata respond playerUrl videoId watchUrl).1 =
        .error (metadataFetchErrorMsg
          (respond (fallbackRequest playerUrl videoId watchUrl)).1)) := by
  refine ⟨?_, rfl, rfl, ?_⟩
  · simp only [fetchMetadata, hfail, Bool.false_eq_true, if_false]
    split <;> rfl
  · intro h2
    simp [fetchMetadata, hfail, h2]

/-- C5 witness: the theorem applied to a responder that always answers
HTTP 500. -/
theorem C5_metadata_fallback_witness :
    (fetchMetadata respondBad "purl" "vid" "wurl").2 =
      [primaryRequest "purl" "vid", fallbackRequest "purl" "vid" "wurl"] ∧
    (fetchMetadata respondBad "purl" "vid" "wurl").1 =
      .error (metadataFetchErrorMsg 500) := by
  have h := C5_metadata_fallback respondBad "purl" "vid" "wurl" rfl
  exact ⟨h.1, h.2.2.2 rfl⟩

/-- C6 (confirmed): a successful invocation never returns an empty
segment sequence, and whenever parsing yields zero segments the parse
stage fails with `EmptyTranscript` instead of succeeding empty. -/
theorem C6_never_empty_on_success (net : NetworkOracle) (video_id : String)
    (segs : List TranscriptSegment)
    (hok : fetch_transcript net video_id = .ok segs) :
    segs ≠ [] ∧
    (∀ body lang, parseSegments body lang = [] →
      parseTranscript body lang = .error emptyTranscriptMsg) := by
  constructor
  · obtain ⟨tr, _, hp⟩ := fetch_transcript_ok net video_id segs hok
    obtain ⟨body, hb⟩ := fetchAndParse_ok net tr segs hp
    exact parseTranscript_ok_ne_nil body (langCodeOf tr) segs hb
  · intro body lang hempty
    simp [parseTranscript, hempty]

/-- C6 witness: the theorem applied to the successful demo run and to a
whitespace-only transcript body. -/
theorem C6_never_empty_on_success_witness :
    demoSegs.isEmpty = false ∧
    parseTranscript ("   ".data) "en" = .error emptyTranscriptMsg := by
  have h := C6_never_empty_on_success demoNet "vid" demoSegs rfl
  exact ⟨rfl, h.2 ("   ".data) "en" rfl⟩

/-- C7 counterexample: a transcript URL whose `fmt` parameter is
introduced by `?` (first query parameter) is passed through unchanged —
the format parameter is not removed, refuting "any fmt query parameter
is removed". -/
theorem C7_counterexample :
    stripFmt c7Url = c7Url ∧ containsSub c7Url ("fmt=srv3".data) = true := by
  decide

/-- C7 (amended): only a `&`-introduced fmt parameter is stripped: for a
URL `p ++ "&fmt=" ++ v ++ s` whose prefix `p` contains no `&fmt=`, with
`v` a non-empty run of non-`&` characters and `s` empty or starting with
`&`, the stripped URL is exactly `p ++ s` — the first `&fmt=<value>` is
removed and every other character of the URL (in particular all other
query parameters) is preserved unchanged; a fmt parameter introduced by
`?` is not removed (see the counterexample). -/
theorem C7_fmt_stripping (p v s : List Char)
    (hp : containsSub p fmtLit = false)
    (hv : v ≠ []) (hvamp : ∀ c ∈ v, c ≠ '&')
    (hs : s = [] ∨ ∃ s2, s = '&' :: s2) :
    stripFmt (p ++ fmtLit ++ v ++ s) = p ++ s := by
  induction p with
  | nil =>
    have hm := matchFmtAt_append v s hv hvamp hs
    have e : ([] : List Char) ++ fmtLit ++ v ++ s =
        '&' :: (['f', 'm', 't', '='] ++ (v ++ s)) := by
      simp [fmtLit]
    rw [e, stripFmt_cons]
    have e2 : ('&' :: (['f', 'm', 't', '='] ++ (v ++ s))) = fmtLit ++ (v ++ s) := by
      simp [fmtLit]
    rw [e2, hm]
    simp
  | cons c p ih =>
    have hp2 : containsSub p fmtLit = false := by
      have := hp
      simp only [containsSub, Bool.or_eq_false_iff] at this
      exact this.2
    have hb : fmtLit.isPrefixOf ((c :: p) ++ (fmtLit ++ (v ++ s))) = false :=
      fmtLit_no_boundary (c :: p) (v ++ s) (by simp) hp
    have hmm : matchFmtAt (c :: (p ++ fmtLit ++ v ++ s)) = none := by
      have e : c :: (p ++ fmtLit ++ v ++ s) = (c :: p) ++ (fmtLit ++ (v ++ s)) := by
        simp [List.append_assoc]
      rw [e]
      unfold matchFmtAt stripPrefixChars
      rw [hb]
      simp
    have e3 : (c :: p) ++ fmtLit ++ v ++ s = c :: (p ++ fmtLit ++ v ++ s) := by
      simp [List.append_assoc]
    rw [e3, stripFmt_cons, hmm, ih hp2]
    rfl

/-- C7 witness: the theorem applied to a URL with a preceding query
parameter, an `&fmt=srv3` parameter and a following parameter. -/
theorem C7_fmt_stripping_witness :
    stripFmt (c7wUrlPre ++ fmtLit ++ ("srv3".data) ++ ("&name=x".data)) =
      c7wUrlPre ++ ("&name=x".data) := by
  exact C7_fmt_stripping c7wUrlPre ("srv3".data) ("&name=x".data)
    (by decide) (by decide) (by decide) (Or.inr ⟨"name=x".data, rfl⟩)

/-- C8 (confirmed): for every matched caption element, a `dur` (resp.
`start`) attribute that does not parse as an `f64` yields a segment with
duration (resp. offset) `0.0`; the segment list is always the total map
over the matches, and the only error the parse stage can produce is
`EmptyTranscript` — a malformed numeric field never fails the
pipeline. -/
theorem C8_malformed_numeric_defaults (body : List Char) (lang : String) :
    (∀ t ∈ scanTexts body, parseF64 t.2.1 = none →
      (mkSegment lang t).duration = .finite 0 1) ∧
    (∀ t ∈ scanTexts body, parseF64 t.1 = none →
      (mkSegment lang t).offset = .finite 0 1) ∧
    parseSegments body lang = (scanTexts body).map (mkSegment lang) ∧
    (∀ e, parseTranscript body lang = .error e → e = emptyTranscriptMsg) := by
  refine ⟨?_, ?_, rfl, ?_⟩
  · intro t _ hp
    simp [mkSegment, hp]
  · intro t _ hp
    simp [mkSegment, hp]
  · intro e he
    simp only [parseTranscript] at he
    split at he
    · cases he
      rfl
    · exact Except.noConfusion he

/-- C8 witness: the theorem applied to a single element whose `dur`
attribute is the non-numeric `xy`. -/
theorem C8_malformed_numeric_defaults_witness :
    parseF64 ['x', 'y'] = none ∧
    (mkSegment "en" (['0'], ['x', 'y'], ['h', 'i'])).duration = .finite 0 1 := by
  refine ⟨by decide, ?_⟩
  exact (C8_malformed_numeric_defaults (textElemOf (['0'], ['x', 'y'], ['h', 'i'])) "en").1
    (['0'], ['x', 'y'], ['h', 'i']) (by decide) (by decide)

/-- C9 (confirmed): all segments of one successful `fetch_transcript`
result carry the same language tag. -/
theorem C9_uniform_lang (net : NetworkOracle) (video_id : String)
    (segs : List TranscriptSegment)
    (hok : fetch_transcript net video_id = .ok segs) :
    ∀ s1 ∈ segs, ∀ s2 ∈ segs, s1.lang = s2.lang := by
  obtain ⟨tr, _, hp⟩ := fetch_transcript_ok net video_id segs hok
  obtain ⟨body, hb⟩ := fetchAndParse_ok net tr segs hp
  have hl := parseTranscript_ok_lang body (langCodeOf tr) segs hb
  intro s1 h1 s2 h2
  rw [hl s1 h1, hl s2 h2]

/-- C9 witness: the theorem applied to the two-segment demo run. -/
theorem C9_uniform_lang_witness : demoSegA.lang = demoSegB.lang := by
  exact C9_uniform_lang demoNet "vid" demoSegs rfl
    demoSegA (by simp [demoSegs]) demoSegB (by simp [demoSegs])

/-- C10 (confirmed): when the selected caption track carries no
string-valued `languageCode`, a successful run attaches "en" to every
returned segment. -/
theorem C10_lang_defaults_en (net : NetworkOracle) (video_id : String)
    (tr : Json) (segs : List TranscriptSegment)
    (hsel : selectTrackStage net video_id = .ok tr)
    (hlang : trackLang tr = none)
    (hok : fetch_transcript net video_id = .ok segs) :
    ∀ s ∈ segs, s.lang = "en" := by
  obtain ⟨tr2, hsel2, hp⟩ := fetch_transcript_ok net video_id segs hok
  rw [hsel] at hsel2
  cases hsel2
  obtain ⟨body, hb⟩ := fetchAndParse_ok net tr segs hp
  have hl := parseTranscript_ok_lang body (langCodeOf tr) segs hb
  intro s hs
  rw [hl s hs]
  simp [langCodeOf, hlang]

/-- C10 witness: the theorem applied to the demo run whose only track has
no `languageCode` field. -/
theorem C10_lang_defaults_en_witness : demoSegA.lang = "en" := by
  exact C10_lang_defaults_en demoNetNoLang "vid" demoTrackNoLang demoSegs
    rfl rfl rfl demoSegA (by simp [demoSegs])
